import Mathlib

/-!
# Shallow embedding of the heat/electricity-load pipeline (src/processing.py)

The pipeline is five SQL (DuckDB) stages over a local database:

1. `build_noaa_daily`        : hourly temperature -> daily max/avg per (station, day)
2. `build_noaa_thresholds`   : daily temps -> 90th-percentile threshold per (station, "MM-DD")
3. `build_noaa_heatwave_flags` : inner join daily x thresholds, 0/1 hot-day flag
4. `build_eia_daily_load`    : hourly load -> DISTINCT, then daily total/peak per (region, day)
5. `heat_load_daily`         : left joins of daily temps with thresholds and daily load

Tables are Lean lists of row structures.  SQL NULL is `Option`; aggregates
ignore NULLs and return `none` on an empty set of values; comparisons follow
SQL three-valued logic (`sqlGeOpt`).  Machine `DOUBLE` arithmetic is idealised
as exact `ℚ` arithmetic.  `GROUP BY` is modelled by deduplicating the list of
group keys and aggregating the rows matching each key; `ORDER BY` by insertion
sort on the listed key columns.
-/

/-- An hour-resolution UTC timestamp, by calendar fields (column `hour_utc`). -/
structure Timestamp where
  year : Nat
  month : Nat
  day : Nat
  hour : Nat
deriving DecidableEq, Repr

/-- A calendar date: the result of `DATE_TRUNC('day', hour_utc)`. -/
structure Date where
  year : Nat
  month : Nat
  day : Nat
deriving DecidableEq, Repr

/-- `DATE_TRUNC('day', t)`: drop the hour. -/
def dateTrunc (t : Timestamp) : Date :=
  ⟨t.year, t.month, t.day⟩

/-- `strftime(d, '%m-%d')`: the calendar-day-of-year key, year dropped. -/
def mmddOf (d : Date) : Nat × Nat :=
  (d.month, d.day)

/-- Lexicographic strict order on character lists, by code point. -/
def charListLtB : List Char → List Char → Bool
  | [], [] => false
  | [], _ :: _ => true
  | _ :: _, [] => false
  | c :: cs, d :: ds => if c < d then true else if d < c then false else charListLtB cs ds

/-- Lexicographic strict order on strings (DuckDB's default collation for
ORDER BY on a text column). -/
def stringLt (a b : String) : Prop :=
  charListLtB a.data b.data = true

instance : DecidableRel stringLt := fun a b => by
  unfold stringLt; infer_instance

/-- Lexicographic order on dates (for ORDER BY on a date column). -/
def dateLe (a b : Date) : Prop :=
  a.year < b.year ∨ (a.year = b.year ∧
    (a.month < b.month ∨ (a.month = b.month ∧ a.day ≤ b.day)))

instance : DecidableRel dateLe := fun a b => by
  unfold dateLe; infer_instance

/-- SQL `MIN` over a list of (non-null) values; `none` when the list is empty. -/
def listMin : List ℚ → Option ℚ
  | [] => none
  | x :: xs =>
    match listMin xs with
    | none => some x
    | some m => some (min x m)

/-- SQL `MAX` over a list of (non-null) values; `none` when the list is empty. -/
def listMax : List ℚ → Option ℚ
  | [] => none
  | x :: xs =>
    match listMax xs with
    | none => some x
    | some m => some (max x m)

/-- SQL `MIN` over a column with NULLs: NULLs are ignored. -/
def aggMin (xs : List (Option ℚ)) : Option ℚ :=
  listMin (xs.filterMap id)

/-- SQL `MAX` over a column with NULLs: NULLs are ignored. -/
def aggMax (xs : List (Option ℚ)) : Option ℚ :=
  listMax (xs.filterMap id)

/-- SQL `AVG` over a column with NULLs: arithmetic mean of the non-null
values, `none` when there are none. -/
def aggAvg (xs : List (Option ℚ)) : Option ℚ :=
  let vs := xs.filterMap id
  if vs.length = 0 then none else some (vs.sum / vs.length)

/-- SQL `SUM` over a column with NULLs: sum of the non-null values, `none`
when there are none. -/
def aggSum (xs : List (Option ℚ)) : Option ℚ :=
  let vs := xs.filterMap id
  if vs.length = 0 then none else some vs.sum

/-- SQL `a >= b` under three-valued logic: NULL when either side is NULL. -/
def sqlGeOpt (a b : Option ℚ) : Option Bool :=
  match a, b with
  | some x, some y => some (decide (y ≤ x))
  | _, _ => none

/-- DuckDB `quantile_cont(col, q)`: NULLs dropped, remaining `n` values sorted
ascending; the result sits at fractional rank `q * (n - 1)`, linearly
interpolated between the two enclosing order statistics (the continuous,
"type-7" estimator, as Postgres `percentile_cont`). -/
def quantileCont (q : ℚ) (xs : List (Option ℚ)) : Option ℚ :=
  let vs := List.insertionSort (· ≤ ·) (xs.filterMap id)
  if vs.length = 0 then none
  else
    let rank : ℚ := q * (vs.length - 1)
    let i : Nat := (⌊rank⌋).toNat
    let lo := vs.getD i 0
    let hi := vs.getD (min (i + 1) (vs.length - 1)) 0
    some (lo + (rank - i) * (hi - lo))

/-- A row of the source table `noaa_hourly_avg`. -/
structure HourlyTemp where
  station : String
  hour_utc : Timestamp
  temp_C : Option ℚ
deriving DecidableEq, Repr

/-- A row of the derived table `noaa_daily_temp`. -/
structure DailyTemp where
  station : String
  day_utc : Date
  daily_max_temp_C : Option ℚ
  avg_temp_C : Option ℚ
deriving DecidableEq, Repr

/-- ORDER BY station, day_utc. -/
def dailyTempLe (a b : DailyTemp) : Prop :=
  stringLt a.station b.station ∨ (a.station = b.station ∧ dateLe a.day_utc b.day_utc)

instance : DecidableRel dailyTempLe := fun a b => by
  unfold dailyTempLe; infer_instance

/-- `build_noaa_daily`:
`CREATE TABLE noaa_daily_temp AS SELECT station, DATE_TRUNC('day', hour_utc)
AS day_utc, MAX(temp_C), AVG(temp_C) FROM noaa_hourly_avg GROUP BY station,
day_utc ORDER BY station, day_utc`. -/
def build_noaa_daily (rows : List HourlyTemp) : List DailyTemp :=
  let keys := (rows.map fun r => (r.station, dateTrunc r.hour_utc)).dedup
  let grouped := keys.map fun k =>
    let grp := rows.filter fun r => decide ((r.station, dateTrunc r.hour_utc) = k)
    { station := k.1
      day_utc := k.2
      daily_max_temp_C := aggMax (grp.map (·.temp_C))
      avg_temp_C := aggAvg (grp.map (·.temp_C)) : DailyTemp }
  List.insertionSort dailyTempLe grouped

/-- A row of the derived table `noaa_temp_thresholds`. -/
structure Threshold where
  station : String
  mmdd : Nat × Nat
  t90_max : Option ℚ
deriving DecidableEq, Repr

/-- `build_noaa_thresholds`:
`CREATE TABLE noaa_temp_thresholds AS SELECT station, strftime(day_utc,
'%m-%d') AS mmdd, quantile_cont(daily_max_temp_C, 0.90) AS t90_max FROM
noaa_daily_temp GROUP BY station, mmdd` (no ORDER BY). -/
def build_noaa_thresholds (daily : List DailyTemp) : List Threshold :=
  let keys := (daily.map fun r => (r.station, mmddOf r.day_utc)).dedup
  keys.map fun k =>
    let grp := daily.filter fun r => decide ((r.station, mmddOf r.day_utc) = k)
    { station := k.1
      mmdd := k.2
      t90_max := quantileCont (9 / 10) (grp.map (·.daily_max_temp_C)) : Threshold }

/-- A row of the derived table `noaa_heatwave_flags`. -/
structure HeatFlag where
  station : String
  day_utc : Date
  daily_max_temp_C : Option ℚ
  avg_temp_C : Option ℚ
  t90_max : Option ℚ
  is_hot_day : Nat
deriving DecidableEq, Repr

/-- ORDER BY station, day_utc. -/
def heatFlagLe (a b : HeatFlag) : Prop :=
  stringLt a.station b.station ∨ (a.station = b.station ∧ dateLe a.day_utc b.day_utc)

instance : DecidableRel heatFlagLe := fun a b => by
  unfold heatFlagLe; infer_instance

/-- `CASE WHEN d.daily_max_temp_C >= t.t90_max THEN 1 ELSE 0 END`: a NULL
comparison is not true, so it falls to the ELSE branch. -/
def caseHot (a b : Option ℚ) : Nat :=
  match sqlGeOpt a b with
  | some true => 1
  | _ => 0

/-- `build_noaa_heatwave_flags`: inner `JOIN noaa_temp_thresholds t ON
d.station = t.station AND d.mmdd = t.mmdd` over `noaa_daily_temp` rows
(with `mmdd := strftime(day_utc, '%m-%d')`), selecting the daily columns,
`t.t90_max`, and the 0/1 `is_hot_day` CASE; ORDER BY station, day_utc. -/
def build_noaa_heatwave_flags (daily : List DailyTemp) (thresholds : List Threshold) :
    List HeatFlag :=
  let joined := daily.flatMap fun d =>
    (thresholds.filter fun t =>
        decide (d.station = t.station ∧ mmddOf d.day_utc = t.mmdd)).map fun t =>
      { station := d.station
        day_utc := d.day_utc
        daily_max_temp_C := d.daily_max_temp_C
        avg_temp_C := d.avg_temp_C
        t90_max := t.t90_max
        is_hot_day := caseHot d.daily_max_temp_C t.t90_max : HeatFlag }
  List.insertionSort heatFlagLe joined

/-- A row of the source table `eia_load_hourly`. -/
structure HourlyLoad where
  region : String
  hour_utc : Timestamp
  load_mwh : Option ℚ
deriving DecidableEq, Repr

/-- A row of the derived table `eia_daily_load`. -/
structure DailyLoad where
  region : String
  day_utc : Date
  daily_total_mwh : Option ℚ
  daily_peak_mwh : Option ℚ
deriving DecidableEq, Repr

/-- ORDER BY region, day_utc. -/
def dailyLoadLe (a b : DailyLoad) : Prop :=
  stringLt a.region b.region ∨ (a.region = b.region ∧ dateLe a.day_utc b.day_utc)

instance : DecidableRel dailyLoadLe := fun a b => by
  unfold dailyLoadLe; infer_instance

/-- `build_eia_daily_load`: `WITH hourly_unique AS (SELECT DISTINCT region,
hour_utc, load_mwh FROM eia_load_hourly) SELECT region, date_trunc('day',
hour_utc) AS day_utc, SUM(load_mwh), MAX(load_mwh) FROM hourly_unique GROUP
BY region, day_utc ORDER BY region, day_utc`. -/
def build_eia_daily_load (rows : List HourlyLoad) : List DailyLoad :=
  let uniq := rows.dedup
  let keys := (uniq.map fun r => (r.region, dateTrunc r.hour_utc)).dedup
  let grouped := keys.map fun k =>
    let grp := uniq.filter fun r => decide ((r.region, dateTrunc r.hour_utc) = k)
    { region := k.1
      day_utc := k.2
      daily_total_mwh := aggSum (grp.map (·.load_mwh))
      daily_peak_mwh := aggMax (grp.map (·.load_mwh)) : DailyLoad }
  List.insertionSort dailyLoadLe grouped

/-- The projected `region` column of `heat_load_daily`:
`CASE WHEN n.station = 'IAD' THEN 'PJM' WHEN n.station = 'BOS' THEN 'ISNE'
END` — no ELSE branch, so any other station yields NULL. -/
def regionCase (s : String) : Option String :=
  if s = "IAD" then some "PJM" else if s = "BOS" then some "ISNE" else none

/-- The region used in the load-join condition of `heat_load_daily`:
`CASE WHEN n.station = 'IAD' THEN 'PJM' ELSE 'ISNE' END` — every station
other than 'IAD' joins against 'ISNE'. -/
def regionJoinKey (s : String) : String :=
  if s = "IAD" then "PJM" else "ISNE"

/-- SQL LEFT OUTER JOIN: every left row is kept; a row with no match on the
right is emitted once with a NULL right side, a row with matches is emitted
once per matching right row. -/
def leftJoin {α β γ : Type} (ls : List α) (rs : List β)
    (cond : α → β → Bool) (merge : α → Option β → γ) : List γ :=
  ls.flatMap fun l =>
    if (rs.filter (cond l)).isEmpty then [merge l none]
    else (rs.filter (cond l)).map fun r => merge l (some r)

/-- A row of the derived table `heat_load_daily`. -/
structure HeatLoad where
  station : String
  region : Option String
  day_utc : Date
  daily_max_temp_C : Option ℚ
  avg_temp_C : Option ℚ
  t90_max : Option ℚ
  is_hot_day : Option Bool
  daily_total_mwh : Option ℚ
  daily_peak_mwh : Option ℚ
deriving DecidableEq, Repr

/-- `heat_load_daily`: `FROM noaa_daily_temp n LEFT JOIN noaa_temp_thresholds
t ON n.station = t.station AND strftime(n.day_utc, '%m-%d') = t.mmdd LEFT
JOIN eia_daily_load e ON e.region = CASE WHEN n.station = 'IAD' THEN 'PJM'
ELSE 'ISNE' END AND e.day_utc = n.day_utc`, selecting the CASE region,
`(n.daily_max_temp_C >= t.t90_max) AS is_hot_day` (three-valued), and the
load columns (no ORDER BY). -/
def heat_load_daily (daily : List DailyTemp) (thresholds : List Threshold)
    (eia : List DailyLoad) : List HeatLoad :=
  let withThresh := leftJoin daily thresholds
    (fun n t => decide (n.station = t.station ∧ mmddOf n.day_utc = t.mmdd))
    (fun n t => (n, t))
  leftJoin withThresh eia
    (fun p e => decide (e.region = regionJoinKey p.1.station ∧ e.day_utc = p.1.day_utc))
    (fun p e =>
      { station := p.1.station
        region := regionCase p.1.station
        day_utc := p.1.day_utc
        daily_max_temp_C := p.1.daily_max_temp_C
        avg_temp_C := p.1.avg_temp_C
        t90_max := p.2.bind (·.t90_max)
        is_hot_day := sqlGeOpt p.1.daily_max_temp_C (p.2.bind (·.t90_max))
        daily_total_mwh := e.bind (·.daily_total_mwh)
        daily_peak_mwh := e.bind (·.daily_peak_mwh) : HeatLoad })

/-- The database file `heatgrid.duckdb`: the two externally populated source
tables and the five derived tables. -/
structure DB where
  noaa_hourly_avg : List HourlyTemp
  eia_load_hourly : List HourlyLoad
  noaa_daily_temp : List DailyTemp
  noaa_temp_thresholds : List Threshold
  noaa_heatwave_flags : List HeatFlag
  eia_daily_load : List DailyLoad
  heat_load_daily_table : List HeatLoad
deriving Repr

/-- Stage 1 as drop-and-recreate of `noaa_daily_temp` from the stored source. -/
def stage_noaa_daily (db : DB) : DB :=
  { db with noaa_daily_temp := build_noaa_daily db.noaa_hourly_avg }

/-- Stage 2 as drop-and-recreate of `noaa_temp_thresholds`. -/
def stage_thresholds (db : DB) : DB :=
  { db with noaa_temp_thresholds := build_noaa_thresholds db.noaa_daily_temp }

/-- Stage 3 as drop-and-recreate of `noaa_heatwave_flags`. -/
def stage_flags (db : DB) : DB :=
  { db with noaa_heatwave_flags :=
      build_noaa_heatwave_flags db.noaa_daily_temp db.noaa_temp_thresholds }

/-- Stage 4 as drop-and-recreate of `eia_daily_load`. -/
def stage_eia (db : DB) : DB :=
  { db with eia_daily_load := build_eia_daily_load db.eia_load_hourly }

/-- Stage 5 as drop-and-recreate of `heat_load_daily`. -/
def stage_heat_load (db : DB) : DB :=
  { db with heat_load_daily_table :=
      heat_load_daily db.noaa_daily_temp db.noaa_temp_thresholds db.eia_daily_load }

/-- `__main__`: the five stages run in order on the shared database. -/
def runPipeline (db : DB) : DB :=
  stage_heat_load (stage_eia (stage_flags (stage_thresholds (stage_noaa_daily db))))

/-- The type-7 / continuous-interpolation 90th percentile as the spec words
it: the value at fractional rank `0.9 * (n - 1)` over the sorted samples,
linearly interpolated between the order statistics at the floor and the
ceiling of that rank.  Stated over already-non-null samples; used only as
the refinement target for the code's `quantileCont`. -/
def specType7_p90 (samples : List ℚ) : Option ℚ :=
  let s := List.insertionSort (· ≤ ·) samples
  if s.length = 0 then none
  else
    let rank : ℚ := (9 / 10) * (s.length - 1)
    let lo := s.getD (⌊rank⌋).toNat 0
    let hi := s.getD (⌈rank⌉).toNat 0
    some (lo + (rank - ⌊rank⌋) * (hi - lo))

/-! ## Concrete example inputs (used by witnesses and counterexamples) -/

/-- The spec's example history: station "S1", ten years of "07-04" daily
maxima [30,31,29,32,33,28,34,35,27,26]. -/
def exDailyS1 : List DailyTemp :=
  [⟨"S1", ⟨2014, 7, 4⟩, some 30, some 30⟩,
   ⟨"S1", ⟨2015, 7, 4⟩, some 31, some 31⟩,
   ⟨"S1", ⟨2016, 7, 4⟩, some 29, some 29⟩,
   ⟨"S1", ⟨2017, 7, 4⟩, some 32, some 32⟩,
   ⟨"S1", ⟨2018, 7, 4⟩, some 33, some 33⟩,
   ⟨"S1", ⟨2019, 7, 4⟩, some 28, some 28⟩,
   ⟨"S1", ⟨2020, 7, 4⟩, some 34, some 34⟩,
   ⟨"S1", ⟨2021, 7, 4⟩, some 35, some 35⟩,
   ⟨"S1", ⟨2022, 7, 4⟩, some 27, some 27⟩,
   ⟨"S1", ⟨2023, 7, 4⟩, some 26, some 26⟩]

/-- Hourly temperatures for station "BOS": one all-null day (2023-07-04)
and one real reading a year later on the same calendar day. -/
def exHourlyBos : List HourlyTemp :=
  [⟨"BOS", ⟨2023, 7, 4, 0⟩, none⟩, ⟨"BOS", ⟨2024, 7, 4, 0⟩, some 30⟩]

/-- A single reading from a station outside the IAD/BOS region mapping. -/
def exHourlyXyz : List HourlyTemp :=
  [⟨"XYZ", ⟨2023, 7, 4, 0⟩, some 30⟩]

/-- One hourly load reading in region ISNE on 2023-07-04. -/
def exLoadsIsne : List HourlyLoad :=
  [⟨"ISNE", ⟨2023, 7, 4, 5⟩, some 500⟩]

/-- The spec's replay example: two byte-identical hourly load rows. -/
def exLoadsDup : List HourlyLoad :=
  [⟨"RX", ⟨2023, 7, 4, 14⟩, some 500⟩, ⟨"RX", ⟨2023, 7, 4, 14⟩, some 500⟩]

/-- A database holding only the "XYZ" temperature reading and the ISNE load. -/
def exDB : DB :=
  ⟨exHourlyXyz, exLoadsIsne, [], [], [], [], []⟩

/-- A database holding the "XYZ" temperature reading and no load data. -/
def exDBEmptyLoad : DB :=
  ⟨exHourlyXyz, [], [], [], [], [], []⟩

/-! ## Helper lemmas -/

theorem listMin_spec {xs : List ℚ} {x : ℚ} (hx : x ∈ xs) :
    ∃ m, listMin xs = some m ∧ m ≤ x := by
  induction xs with
  | nil => cases hx
  | cons a t ih =>
    rcases List.mem_cons.1 hx with rfl | hxt
    · cases ht : listMin t with
      | none => exact ⟨x, by simp [listMin, ht], le_refl x⟩
      | some m => exact ⟨min x m, by simp [listMin, ht], min_le_left x m⟩
    · obtain ⟨m, hm, hmx⟩ := ih hxt
      exact ⟨min a m, by simp [listMin, hm], le_trans (min_le_right a m) hmx⟩

theorem listMax_spec {xs : List ℚ} {x : ℚ} (hx : x ∈ xs) :
    ∃ m, listMax xs = some m ∧ x ≤ m := by
  induction xs with
  | nil => cases hx
  | cons a t ih =>
    rcases List.mem_cons.1 hx with rfl | hxt
    · cases ht : listMax t with
      | none => exact ⟨x, by simp [listMax, ht], le_refl x⟩
      | some m => exact ⟨max x m, by simp [listMax, ht], le_max_left x m⟩
    · obtain ⟨m, hm, hmx⟩ := ih hxt
      exact ⟨max a m, by simp [listMax, hm], le_trans hmx (le_max_right a m)⟩

/-- Dissection of `quantileCont` on a nonempty value list: it returns a value
sandwiched between two members of the value list. -/
theorem quantileCont_between (q : ℚ) (hq0 : 0 ≤ q) (hq1 : q ≤ 1)
    (xs : List (Option ℚ)) (hne : xs.filterMap id ≠ []) :
    ∃ v, quantileCont q xs = some v ∧
      (∃ a ∈ xs.filterMap id, a ≤ v) ∧ (∃ b ∈ xs.filterMap id, v ≤ b) := by
  set vs := List.insertionSort (· ≤ ·) (xs.filterMap id) with hvs
  have hlen : vs.length = (xs.filterMap id).length := List.length_insertionSort _ _
  have hn0 : vs.length ≠ 0 := by
    rw [hlen]; exact fun h => hne (List.length_eq_zero.1 h)
  have hn1 : 1 ≤ vs.length := Nat.one_le_iff_ne_zero.2 hn0
  have hcast : (1 : ℚ) ≤ (vs.length : ℚ) := by exact_mod_cast hn1
  set rank : ℚ := q * ((vs.length : ℚ) - 1) with hrank
  have hrank0 : 0 ≤ rank := mul_nonneg hq0 (by linarith)
  have hrankle : rank ≤ (vs.length : ℚ) - 1 := by
    calc q * ((vs.length : ℚ) - 1) ≤ 1 * ((vs.length : ℚ) - 1) := by
          apply mul_le_mul_of_nonneg_right hq1; linarith
      _ = (vs.length : ℚ) - 1 := one_mul _
  set i : Nat := (⌊rank⌋).toNat with hi
  have hiz : (i : ℤ) = ⌊rank⌋ := Int.toNat_of_nonneg (Int.floor_nonneg.2 hrank0)
  have hiq : (i : ℚ) ≤ rank := by
    have := Int.floor_le rank
    rw [← hiz] at this; exact_mod_cast this
  have hranklt : rank < (i : ℚ) + 1 := by
    have := Int.lt_floor_add_one rank
    rw [← hiz] at this; exact_mod_cast this
  have hile : i ≤ vs.length - 1 := by
    have h1 : (i : ℚ) ≤ (vs.length : ℚ) - 1 := le_trans hiq hrankle
    have h2 : (i : ℚ) ≤ ((vs.length - 1 : Nat) : ℚ) := by
      rwa [Nat.cast_sub hn1, Nat.cast_one]
    exact_mod_cast h2
  have hilt : i < vs.length := lt_of_le_of_lt hile (Nat.sub_lt (Nat.lt_of_lt_of_le Nat.zero_lt_one hn1) Nat.zero_lt_one)
  set j : Nat := min (i + 1) (vs.length - 1) with hj
  have hjlt : j < vs.length := lt_of_le_of_lt (min_le_right _ _)
    (Nat.sub_lt (Nat.lt_of_lt_of_le Nat.zero_lt_one hn1) Nat.zero_lt_one)
  have hij : i ≤ j := le_min (Nat.le_succ i) hile
  have hsorted : vs.Sorted (· ≤ ·) := List.sorted_insertionSort _ _
  have hgetle : vs.get ⟨i, hilt⟩ ≤ vs.get ⟨j, hjlt⟩ :=
    hsorted.rel_get_of_le (by exact hij)
  have hgetDi : vs.getD i 0 = vs.get ⟨i, hilt⟩ := List.getD_eq_get _ _ _
  have hgetDj : vs.getD j 0 = vs.get ⟨j, hjlt⟩ := List.getD_eq_get _ _ _
  have hfrac0 : 0 ≤ rank - (i : ℚ) := by linarith
  have hfrac1 : rank - (i : ℚ) ≤ 1 := by linarith
  refine ⟨vs.getD i 0 + (rank - i) * (vs.getD j 0 - vs.getD i 0), ?_, ?_, ?_⟩
  · simp only [quantileCont]
    rw [if_neg hn0]
  · refine ⟨vs.get ⟨i, hilt⟩, ?_, ?_⟩
    · exact (List.mem_insertionSort (· ≤ ·)).1 (List.get_mem vs i hilt)
    · rw [hgetDi, hgetDj]
      nlinarith [mul_nonneg hfrac0 (sub_nonneg.2 hgetle)]
  · refine ⟨vs.get ⟨j, hjlt⟩, ?_, ?_⟩
    · exact (List.mem_insertionSort (· ≤ ·)).1 (List.get_mem vs j hjlt)
    · rw [hgetDi, hgetDj]
      nlinarith [mul_nonneg (sub_nonneg.2 hfrac1) (sub_nonneg.2 hgetle)]

/-- `quantile_cont` of a single (non-null) sample is that sample, for any
quantile parameter. -/
theorem quantileCont_singleton (q : ℚ) (x : ℚ) :
    quantileCont q [some x] = some x := by
  simp [quantileCont, List.insertionSort, List.orderedInsert]

/-- Elimination principle for `leftJoin`: every output row comes from some
left row, either merged with `none` (no right match) or with a matching
right row. -/
theorem of_mem_leftJoin {α β γ : Type} {ls : List α} {rs : List β}
    {cond : α → β → Bool} {merge : α → Option β → γ} {x : γ}
    (hx : x ∈ leftJoin ls rs cond merge) :
    ∃ l ∈ ls, (x = merge l none ∧ ∀ r ∈ rs, cond l r = false) ∨
      ∃ r ∈ rs, cond l r = true ∧ x = merge l (some r) := by
  simp only [leftJoin, List.mem_flatMap] at hx
  obtain ⟨l, hl, hxl⟩ := hx
  refine ⟨l, hl, ?_⟩
  by_cases hemp : (rs.filter (cond l)).isEmpty
  · rw [if_pos hemp] at hxl
    simp only [List.mem_singleton] at hxl
    refine Or.inl ⟨hxl, fun r hr => ?_⟩
    have hnil : rs.filter (cond l) = [] := List.isEmpty_iff.1 hemp
    have := List.filter_eq_nil_iff.1 hnil r hr
    simpa using this
  · rw [if_neg hemp] at hxl
    simp only [List.mem_map] at hxl
    obtain ⟨r, hrmem, hxr⟩ := hxl
    exact Or.inr ⟨r, (List.mem_filter.1 hrmem).1, (List.mem_filter.1 hrmem).2, hxr.symm⟩

/-- A left join against a right side matching each left row at most once
emits exactly one row per left row. -/
theorem leftJoin_length {α β γ : Type} {ls : List α} {rs : List β}
    {cond : α → β → Bool} {merge : α → Option β → γ}
    (h : ∀ l, (rs.filter (cond l)).length ≤ 1) :
    (leftJoin ls rs cond merge).length = ls.length := by
  induction ls with
  | nil => rfl
  | cons a t ih =>
    have h1 : (if (rs.filter (cond a)).isEmpty then [merge a none]
        else (rs.filter (cond a)).map fun r => merge a (some r)).length = 1 := by
      by_cases hemp : (rs.filter (cond a)).isEmpty
      · rw [if_pos hemp]; rfl
      · rw [if_neg hemp, List.length_map]
        have hne : rs.filter (cond a) ≠ [] := by
          intro hnil; exact hemp (by simp [hnil])
        have hpos : 0 < (rs.filter (cond a)).length := List.length_pos.2 hne
        have hone := h a
        omega
    simp only [leftJoin, List.flatMap_cons, List.length_append] at ih ⊢
    rw [h1, ih, List.length_cons, Nat.add_comm]

/-- In a list whose projected keys are distinct, at most one element passes
a filter that pins the key to a single value. -/
theorem length_filter_le_one {α κ : Type} [DecidableEq κ] {l : List α} {key : α → κ}
    (hnd : (l.map key).Nodup) (p : α → Bool) {c : κ}
    (hp : ∀ a, p a = true → key a = c) :
    (l.filter p).length ≤ 1 := by
  induction l with
  | nil => simp
  | cons a t ih =>
    simp only [List.map_cons, List.nodup_cons] at hnd
    by_cases hpa : p a = true
    · have ht : t.filter p = [] := by
        refine List.filter_eq_nil_iff.2 fun b hb hpb => ?_
        exact hnd.1 (by
          rw [hp a hpa, ← hp b (by simpa using hpb)]
          exact List.mem_map_of_mem key hb)
      rw [List.filter_cons_of_pos hpa, ht]
      simp
    · rw [List.filter_cons_of_neg (by simpa using hpa)]
      exact ih hnd.2

/-- Group keys of a grouped-and-ordered table are distinct. -/
theorem nodup_key_of_grouped {κ ρ : Type} [DecidableEq κ] {keys : List κ}
    (hnd : keys.Nodup) (mk : κ → ρ) (key : ρ → κ) (hmk : ∀ k, key (mk k) = k)
    (le : ρ → ρ → Prop) [DecidableRel le] :
    ((List.insertionSort le (keys.map mk)).map key).Nodup := by
  have hperm : (List.insertionSort le (keys.map mk)).Perm (keys.map mk) :=
    List.perm_insertionSort _ _
  have hbase : ((keys.map mk).map key).Nodup := by
    rw [List.map_map]
    have : keys.map (key ∘ mk) = keys.map id :=
      List.map_congr_left fun k _ => hmk k
    rw [this, List.map_id]
    exact hnd
  exact ((hperm.map key).nodup_iff).2 hbase

/-- The code's `quantile_cont` at 0.90 coincides with the spec's wording of
the type-7 estimator (interpolation between the order statistics at the
floor and the ceiling of rank `0.9 * (n - 1)`). -/
theorem quantileCont_eq_specType7 (xs : List (Option ℚ)) :
    quantileCont (9 / 10) xs = specType7_p90 (xs.filterMap id) := by
  simp only [quantileCont, specType7_p90]
  set vs := List.insertionSort (· ≤ ·) (xs.filterMap id) with hvs
  by_cases hn0 : vs.length = 0
  · rw [if_pos hn0, if_pos hn0]
  · rw [if_neg hn0, if_neg hn0]
    have hn1 : 1 ≤ vs.length := Nat.one_le_iff_ne_zero.2 hn0
    have hcast : (1 : ℚ) ≤ (vs.length : ℚ) := by exact_mod_cast hn1
    set rank : ℚ := 9 / 10 * ((vs.length : ℚ) - 1) with hrank
    have hrank0 : 0 ≤ rank := mul_nonneg (by norm_num) (by linarith)
    set i : Nat := (⌊rank⌋).toNat with hi
    have hiz : (i : ℤ) = ⌊rank⌋ := Int.toNat_of_nonneg (Int.floor_nonneg.2 hrank0)
    have hiq : ((i : ℚ)) = ((⌊rank⌋ : ℤ) : ℚ) := by exact_mod_cast congrArg (fun z : ℤ => (z : ℚ)) hiz
    by_cases hfr : rank - ((⌊rank⌋ : ℤ) : ℚ) = 0
    · have hfr2 : rank - (i : ℚ) = 0 := by rw [hiq]; exact hfr
      rw [hfr2, hfr]
      simp
    · -- the rank is not integral, so the ceiling is the floor plus one and
      -- the floor is strictly below the last index
      have hne2 : 2 ≤ vs.length := by
        rcases Nat.lt_or_ge vs.length 2 with h2 | h2
        · exfalso
          have hone : vs.length = 1 := by omega
          apply hfr
          rw [hrank, hone]
          norm_num
        · exact h2
      have hcast2 : (2 : ℚ) ≤ (vs.length : ℚ) := by exact_mod_cast hne2
      have hranklt : rank < (vs.length : ℚ) - 1 := by
        rw [hrank]
        nlinarith
      have hceil : ⌈rank⌉ = ⌊rank⌋ + 1 := by
        refine le_antisymm (Int.ceil_le_floor_add_one rank) ?_
        rcases Int.lt_or_le ⌊rank⌋ ⌈rank⌉ with h | h
        · omega
        · exfalso
          apply hfr
          have h1 : rank ≤ ((⌊rank⌋ : ℤ) : ℚ) := by
            calc rank ≤ ((⌈rank⌉ : ℤ) : ℚ) := Int.le_ceil rank
              _ ≤ ((⌊rank⌋ : ℤ) : ℚ) := by exact_mod_cast h
          have h2 : ((⌊rank⌋ : ℤ) : ℚ) ≤ rank := Int.floor_le rank
          linarith
      have hflt : i < vs.length - 1 := by
        have h1 : ((⌊rank⌋ : ℤ) : ℚ) ≤ rank := Int.floor_le rank
        have h2 : ((i : ℚ)) < (vs.length : ℚ) - 1 := by rw [hiq]; linarith
        have h3 : ((i : ℚ)) < (((vs.length - 1 : Nat)) : ℚ) := by
          rwa [Nat.cast_sub hn1, Nat.cast_one]
        exact_mod_cast h3
      have hmin : min (i + 1) (vs.length - 1) = i + 1 := min_eq_left hflt
      have hceilNat : (⌈rank⌉).toNat = i + 1 := by
        have : ((⌈rank⌉).toNat : ℤ) = ((i + 1 : Nat) : ℤ) := by
          rw [Int.toNat_of_nonneg (Int.ceil_nonneg hrank0), hceil]
          omega
        exact_mod_cast this
      rw [hmin, hceilNat, hiq]

/-- Unsorted variant of `nodup_key_of_grouped`. -/
theorem nodup_key_of_grouped_nosort {κ ρ : Type} [DecidableEq κ] {keys : List κ}
    (hnd : keys.Nodup) (mk : κ → ρ) (key : ρ → κ) (hmk : ∀ k, key (mk k) = k) :
    ((keys.map mk).map key).Nodup := by
  rw [List.map_map]
  have hcomp : List.map (key ∘ mk) keys = List.map id keys :=
    List.map_congr_left fun k _ => by simp [hmk k]
  rw [hcomp, List.map_id]
  exact hnd

/-- Each threshold row's `t90_max` is `quantile_cont` at 0.90 over the
`daily_max_temp_C` values of its (station, mmdd) group. -/
theorem thresholds_t90_eq {daily : List DailyTemp} {t : Threshold}
    (ht : t ∈ build_noaa_thresholds daily) :
    t.t90_max = quantileCont (9 / 10)
      ((daily.filter fun r =>
        decide ((r.station, mmddOf r.day_utc) = (t.station, t.mmdd))).map
          (·.daily_max_temp_C)) := by
  simp only [build_noaa_thresholds, List.mem_map] at ht
  obtain ⟨k, hk, rfl⟩ := ht
  rfl

/-- Every (station, mmdd) key occurring in the daily table has a threshold
row, because the threshold table is grouped from that very table. -/
theorem thresholds_key_present {daily : List DailyTemp} {d : DailyTemp}
    (hd : d ∈ daily) :
    ∃ t ∈ build_noaa_thresholds daily,
      t.station = d.station ∧ t.mmdd = mmddOf d.day_utc := by
  have hk : (d.station, mmddOf d.day_utc) ∈
      (daily.map fun r => (r.station, mmddOf r.day_utc)).dedup :=
    List.mem_dedup.2 (List.mem_map_of_mem _ hd)
  exact ⟨_, List.mem_map_of_mem _ hk, rfl, rfl⟩

/-- The (station, mmdd) keys of the threshold table are distinct. -/
theorem thresholds_nodup_key (daily : List DailyTemp) :
    ((build_noaa_thresholds daily).map fun t => (t.station, t.mmdd)).Nodup := by
  simpa [build_noaa_thresholds] using
    nodup_key_of_grouped_nosort (List.nodup_dedup _) _
      (fun t : Threshold => (t.station, t.mmdd)) (fun k => rfl)

/-- At most one threshold row matches a fixed (station, mmdd) pair. -/
theorem thresholds_filter_le_one (daily : List DailyTemp) (s : String)
    (md : Nat × Nat) :
    ((build_noaa_thresholds daily).filter fun t =>
      decide (s = t.station ∧ md = t.mmdd)).length ≤ 1 := by
  refine length_filter_le_one (thresholds_nodup_key daily) _ (c := (s, md))
    fun a ha => ?_
  have h := of_decide_eq_true ha
  rw [← h.1, ← h.2]

/-- The (region, day) keys of the daily-load table are distinct. -/
theorem eia_nodup_key (rows : List HourlyLoad) :
    ((build_eia_daily_load rows).map fun e => (e.region, e.day_utc)).Nodup := by
  simpa [build_eia_daily_load] using
    nodup_key_of_grouped (List.nodup_dedup _) _
      (fun e : DailyLoad => (e.region, e.day_utc)) (fun k => rfl) dailyLoadLe

/-- At most one daily-load row matches a fixed (region, day) pair. -/
theorem eia_filter_le_one (rows : List HourlyLoad) (reg : String) (d : Date) :
    ((build_eia_daily_load rows).filter fun e =>
      decide (e.region = reg ∧ e.day_utc = d)).length ≤ 1 := by
  refine length_filter_le_one (eia_nodup_key rows) _ (c := (reg, d))
    fun a ha => ?_
  have h := of_decide_eq_true ha
  rw [h.1, h.2]

/-- A flat map whose function emits exactly one row per element preserves
length. -/
theorem flatMap_length_one {α β : Type} {l : List α} {f : α → List β}
    (h : ∀ a ∈ l, (f a).length = 1) : (l.flatMap f).length = l.length := by
  induction l with
  | nil => rfl
  | cons a t ih =>
    rw [List.flatMap_cons, List.length_append, h a (List.mem_cons_self a t),
      ih fun b hb => h b (List.mem_cons_of_mem a hb), List.length_cons,
      Nat.add_comm]

/-- The standalone flag table has exactly one row per daily-temperature row
when its threshold side is built from that same daily table. -/
theorem flags_length (daily : List DailyTemp) :
    (build_noaa_heatwave_flags daily (build_noaa_thresholds daily)).length =
      daily.length := by
  simp only [build_noaa_heatwave_flags]
  rw [List.length_insertionSort]
  apply flatMap_length_one
  intro d hd
  rw [List.length_map]
  have hle := thresholds_filter_le_one daily d.station (mmddOf d.day_utc)
  obtain ⟨t, htm, hts, htmd⟩ := thresholds_key_present hd
  have htf : t ∈ (build_noaa_thresholds daily).filter fun t2 =>
      decide (d.station = t2.station ∧ mmddOf d.day_utc = t2.mmdd) :=
    List.mem_filter.2 ⟨htm, decide_eq_true ⟨hts.symm, htmd.symm⟩⟩
  have hpos : 0 < ((build_noaa_thresholds daily).filter fun t2 =>
      decide (d.station = t2.station ∧ mmddOf d.day_utc = t2.mmdd)).length :=
    List.length_pos_of_mem htf
  omega

/-- Anatomy of a `heat_load_daily` row: it comes from one daily-temperature
row, an optional matching threshold, and an optional matching daily-load
row, and every projected column is determined by those. -/
theorem heat_load_row_cases {daily : List DailyTemp} {th : List Threshold}
    {eia : List DailyLoad} {r : HeatLoad}
    (hr : r ∈ heat_load_daily daily th eia) :
    ∃ n ∈ daily, ∃ ob : Option Threshold,
      r.station = n.station ∧ r.day_utc = n.day_utc ∧
      r.daily_max_temp_C = n.daily_max_temp_C ∧ r.avg_temp_C = n.avg_temp_C ∧
      r.region = regionCase n.station ∧
      r.t90_max = ob.bind (·.t90_max) ∧
      r.is_hot_day = sqlGeOpt n.daily_max_temp_C (ob.bind (·.t90_max)) ∧
      ((ob = none ∧ ∀ t ∈ th, ¬(n.station = t.station ∧ mmddOf n.day_utc = t.mmdd)) ∨
        (∃ t ∈ th, ob = some t ∧ n.station = t.station ∧ mmddOf n.day_utc = t.mmdd)) ∧
      ((r.daily_total_mwh = none ∧ r.daily_peak_mwh = none ∧
          ∀ e ∈ eia, ¬(e.region = regionJoinKey n.station ∧ e.day_utc = n.day_utc)) ∨
        (∃ e ∈ eia, e.region = regionJoinKey n.station ∧ e.day_utc = n.day_utc ∧
          r.daily_total_mwh = e.daily_total_mwh ∧
          r.daily_peak_mwh = e.daily_peak_mwh)) := by
  simp only [heat_load_daily] at hr
  obtain ⟨p, hp, hcase2⟩ := of_mem_leftJoin hr
  obtain ⟨n, hn, hcase1⟩ := of_mem_leftJoin hp
  refine ⟨n, hn, ?_⟩
  rcases hcase1 with ⟨rfl, hnomatch⟩ | ⟨t, ht, hct, rfl⟩
  · refine ⟨none, ?_⟩
    rcases hcase2 with ⟨rfl, hnoe⟩ | ⟨e, he, hce, rfl⟩
    · refine ⟨rfl, rfl, rfl, rfl, rfl, rfl, rfl, ?_, ?_⟩
      · exact Or.inl ⟨rfl, fun t2 ht2 hc => by
          have := hnomatch t2 ht2
          rw [decide_eq_true hc] at this
          cases this⟩
      · exact Or.inl ⟨rfl, rfl, fun e2 he2 hc => by
          have := hnoe e2 he2
          rw [decide_eq_true hc] at this
          cases this⟩
    · refine ⟨rfl, rfl, rfl, rfl, rfl, rfl, rfl, ?_, ?_⟩
      · exact Or.inl ⟨rfl, fun t2 ht2 hc => by
          have := hnomatch t2 ht2
          rw [decide_eq_true hc] at this
          cases this⟩
      · have hcond := of_decide_eq_true hce
        exact Or.inr ⟨e, he, hcond.1, hcond.2, rfl, rfl⟩
  · refine ⟨some t, ?_⟩
    have hcond1 := of_decide_eq_true hct
    rcases hcase2 with ⟨rfl, hnoe⟩ | ⟨e, he, hce, rfl⟩
    · refine ⟨rfl, rfl, rfl, rfl, rfl, rfl, rfl, ?_, ?_⟩
      · exact Or.inr ⟨t, ht, rfl, hcond1⟩
      · exact Or.inl ⟨rfl, rfl, fun e2 he2 hc => by
          have := hnoe e2 he2
          rw [decide_eq_true hc] at this
          cases this⟩
    · refine ⟨rfl, rfl, rfl, rfl, rfl, rfl, rfl, ?_, ?_⟩
      · exact Or.inr ⟨t, ht, rfl, hcond1⟩
      · have hcond := of_decide_eq_true hce
        exact Or.inr ⟨e, he, hcond.1, hcond.2, rfl, rfl⟩

/-- `quantile_cont` over a column whose non-null part is a single value
returns that value, for any quantile parameter. -/
theorem quantileCont_of_single_value (q : ℚ) (xs : List (Option ℚ)) (x : ℚ)
    (h : xs.filterMap id = [x]) : quantileCont q xs = some x := by
  simp only [quantileCont, h, List.insertionSort, List.orderedInsert]
  norm_num

/-- An aggregate column over an all-null group is null. -/
theorem agg_of_all_none {xs : List (Option ℚ)} (h : ∀ o ∈ xs, o = none) :
    aggMax xs = none ∧ aggAvg xs = none := by
  have hnil : xs.filterMap id = [] :=
    List.filterMap_eq_nil.2 fun o ho => by rw [h o ho]; rfl
  constructor
  · simp [aggMax, hnil, listMax]
  · simp [aggAvg, hnil]

/-- The unified table has exactly one row per daily-temperature row when its
join partners are the grouped tables built by the pipeline. -/
theorem heat_load_length (daily : List DailyTemp) (loads : List HourlyLoad) :
    (heat_load_daily daily (build_noaa_thresholds daily)
      (build_eia_daily_load loads)).length = daily.length := by
  simp only [heat_load_daily]
  have h2 : ∀ p : DailyTemp × Option Threshold,
      ((build_eia_daily_load loads).filter fun e =>
        decide (e.region = regionJoinKey p.1.station ∧ e.day_utc = p.1.day_utc)).length ≤ 1 :=
    fun p => eia_filter_le_one loads _ _
  have h1 : ∀ n : DailyTemp,
      ((build_noaa_thresholds daily).filter fun t =>
        decide (n.station = t.station ∧ mmddOf n.day_utc = t.mmdd)).length ≤ 1 :=
    fun n => thresholds_filter_le_one daily _ _
  rw [leftJoin_length h2, leftJoin_length h1]

section QuantileExample

attribute [local semireducible] Rat.mul Rat.add Rat.inv Rat.sub

/-- Evaluation of the spec's worked example: the type-7 90th percentile of
[26..35] is 34.1. -/
theorem quantile_example_eval : quantileCont (9 / 10)
    ([26, 27, 28, 29, 30, 31, 32, 33, 34, 35].map some) = some (341 / 10) := by
  decide

/-- Evaluation of the replay example: two identical (region, hour, 500 MWh)
rows aggregate to a 500 MWh day, not 1000. -/
theorem eia_dup_example_eval : build_eia_daily_load exLoadsDup =
    [⟨"RX", ⟨2023, 7, 4⟩, some 500, some 500⟩] := by
  decide

end QuantileExample

/-! ## Claims -/

section Claims

attribute [local semireducible] Rat.mul Rat.add Rat.inv Rat.sub

/-- C1: for every (station, calendar-day) group, `build_noaa_thresholds`
computes `t90_max` as the type-7 (continuous, linear-interpolation) 90th
percentile of the group's `daily_max_temp_C` values — stated as equality
of the code's `quantile_cont` with the spec-worded estimator
`specType7_p90`, evaluated at the spec's 10-sample example (34.1), and
returning the sample itself for singleton groups. -/
theorem C1_threshold_is_type7_percentile :
    (∀ xs : List (Option ℚ),
      quantileCont (9 / 10) xs = specType7_p90 (xs.filterMap id)) ∧
    (∀ daily : List DailyTemp, ∀ t ∈ build_noaa_thresholds daily,
      t.t90_max = specType7_p90
        (((daily.filter fun r =>
          decide ((r.station, mmddOf r.day_utc) = (t.station, t.mmdd))).map
            (·.daily_max_temp_C)).filterMap id)) ∧
    quantileCont (9 / 10) ([26, 27, 28, 29, 30, 31, 32, 33, 34, 35].map some) =
      some (341 / 10) ∧
    (∀ x : ℚ, quantileCont (9 / 10) [some x] = some x) := by
  refine ⟨quantileCont_eq_specType7, ?_, quantile_example_eval,
    fun x => quantileCont_singleton _ x⟩
  intro daily t ht
  rw [thresholds_t90_eq ht, quantileCont_eq_specType7]

/-- Witness for C1 at the spec's example: the single threshold row computed
from `exDailyS1` carries `t90_max = 34.1` and agrees with the spec-worded
estimator. -/
theorem C1_witness :
    (⟨"S1", (7, 4), some (341 / 10)⟩ : Threshold) ∈ build_noaa_thresholds exDailyS1 ∧
    (⟨"S1", (7, 4), some (341 / 10)⟩ : Threshold).t90_max = specType7_p90
      (((exDailyS1.filter fun r =>
        decide ((r.station, mmddOf r.day_utc) =
          ((⟨"S1", (7, 4), some (341 / 10)⟩ : Threshold).station,
           (⟨"S1", (7, 4), some (341 / 10)⟩ : Threshold).mmdd))).map
            (·.daily_max_temp_C)).filterMap id) := by
  constructor
  · decide
  · exact C1_threshold_is_type7_percentile.2.1 exDailyS1 _ (by decide)

/-- C2 counterexample: with a non-null threshold but a null daily maximum
(an all-null-temperature day whose calendar day has history from another
year), the unified table carries `is_hot_day = NULL`, not false. -/
theorem C2_counterexample :
    ∃ r ∈ heat_load_daily (build_noaa_daily exHourlyBos)
        (build_noaa_thresholds (build_noaa_daily exHourlyBos))
        (build_eia_daily_load []),
      r.t90_max = some 30 ∧ r.daily_max_temp_C = none ∧ r.is_hot_day = none := by
  decide

/-- C2 amended: `is_hot_day` is the SQL three-valued comparison
`daily_max_temp_C >= t90_max`: `some (t90 ≤ max)` when both are non-null,
and null when `t90_max` is null (no matching threshold) or when
`daily_max_temp_C` is null — in the latter case it is null even though a
threshold matched, rather than false. -/
theorem C2_flag_consistency_three_valued :
    ∀ (daily : List DailyTemp) (th : List Threshold) (eia : List DailyLoad)
      (r : HeatLoad), r ∈ heat_load_daily daily th eia →
      r.is_hot_day = sqlGeOpt r.daily_max_temp_C r.t90_max ∧
      (∀ m q, r.daily_max_temp_C = some m → r.t90_max = some q →
        r.is_hot_day = some (decide (q ≤ m))) ∧
      (r.t90_max = none → r.is_hot_day = none) ∧
      (r.daily_max_temp_C = none → r.is_hot_day = none) := by
  intro daily th eia r hr
  obtain ⟨n, hn, ob, hst, hday, hmax, havg, hreg, ht90, hhot, hob, hload⟩ :=
    heat_load_row_cases hr
  have hmain : r.is_hot_day = sqlGeOpt r.daily_max_temp_C r.t90_max := by
    rw [hhot, hmax, ht90]
  refine ⟨hmain, ?_, ?_, ?_⟩
  · intro m q hm hq
    rw [hmain, hm, hq]
    rfl
  · intro hq
    rw [hmain, hq]
    cases r.daily_max_temp_C <;> rfl
  · intro hm
    rw [hmain, hm]
    rfl

/-- Witness for the amended C2: the 2024-07-04 "BOS" row meets its
threshold of 30 and is flagged `some true`. -/
theorem C2_witness :
    (⟨"BOS", some "ISNE", ⟨2024, 7, 4⟩, some 30, some 30, some 30, some true,
        none, none⟩ : HeatLoad) ∈
      heat_load_daily (build_noaa_daily exHourlyBos)
        (build_noaa_thresholds (build_noaa_daily exHourlyBos))
        (build_eia_daily_load []) ∧
    (⟨"BOS", some "ISNE", ⟨2024, 7, 4⟩, some 30, some 30, some 30, some true,
        none, none⟩ : HeatLoad).is_hot_day =
      sqlGeOpt (some 30) (some 30) :=
  ⟨by decide,
   (C2_flag_consistency_three_valued (build_noaa_daily exHourlyBos)
      (build_noaa_thresholds (build_noaa_daily exHourlyBos))
      (build_eia_daily_load [])
      ⟨"BOS", some "ISNE", ⟨2024, 7, 4⟩, some 30, some 30, some 30, some true,
        none, none⟩ (by decide)).1⟩

/-- C3 counterexample: a record from station "XYZ" (outside the mapping)
does not abort the join — the unified table still gets exactly one row for
it, with a null region. -/
theorem C3_counterexample :
    (heat_load_daily (build_noaa_daily exHourlyXyz)
      (build_noaa_thresholds (build_noaa_daily exHourlyXyz))
      (build_eia_daily_load [])).length = 1 ∧
    ∃ r ∈ heat_load_daily (build_noaa_daily exHourlyXyz)
        (build_noaa_thresholds (build_noaa_daily exHourlyXyz))
        (build_eia_daily_load []),
      r.station = "XYZ" ∧ r.region = none := by
  constructor
  · decide
  · decide

/-- C3 amended: a station outside the fixed mapping does not raise an
error; its unified row is emitted with a null `region` (the projection
CASE has no ELSE branch). -/
theorem C3_unmapped_station_null_region :
    ∀ (daily : List DailyTemp) (th : List Threshold) (eia : List DailyLoad)
      (r : HeatLoad), r ∈ heat_load_daily daily th eia →
      r.station ≠ "IAD" → r.station ≠ "BOS" → r.region = none := by
  intro daily th eia r hr h1 h2
  obtain ⟨n, hn, ob, hst, hday, hmax, havg, hreg, ht90, hhot, hob, hload⟩ :=
    heat_load_row_cases hr
  rw [hst] at h1 h2
  rw [hreg, regionCase, if_neg h1, if_neg h2]

/-- Witness for the amended C3: the "XYZ" row of the example pipeline run
has a null region. -/
theorem C3_witness :
    (⟨"XYZ", none, ⟨2023, 7, 4⟩, some 30, some 30, some 30, some true, none,
        none⟩ : HeatLoad) ∈
      heat_load_daily (build_noaa_daily exHourlyXyz)
        (build_noaa_thresholds (build_noaa_daily exHourlyXyz))
        (build_eia_daily_load []) ∧
    (⟨"XYZ", none, ⟨2023, 7, 4⟩, some 30, some 30, some 30, some true, none,
        none⟩ : HeatLoad).region = none :=
  ⟨by decide,
   C3_unmapped_station_null_region (build_noaa_daily exHourlyXyz)
      (build_noaa_thresholds (build_noaa_daily exHourlyXyz))
      (build_eia_daily_load [])
      ⟨"XYZ", none, ⟨2023, 7, 4⟩, some 30, some 30, some 30, some true, none,
        none⟩ (by decide) (by decide) (by decide)⟩

/-- C6 counterexample: a (station, day) group whose only hourly temperature
is null yields one output row with null aggregates — not the absence of a
row. -/
theorem C6_counterexample :
    build_noaa_daily [⟨"BOS", ⟨2023, 7, 4, 0⟩, none⟩] =
      [⟨"BOS", ⟨2023, 7, 4⟩, none, none⟩] := by
  decide

/-- C6 amended: every input (station, day) pair — including all-null
temperature groups — produces a daily row; aggregates ignore nulls, and an
all-null group's row carries null `daily_max_temp_C` and `avg_temp_C`
rather than being dropped. -/
theorem C6_allnull_group_keeps_row :
    ∀ rows : List HourlyTemp,
      (∀ x ∈ rows, ∃ d ∈ build_noaa_daily rows,
        d.station = x.station ∧ d.day_utc = dateTrunc x.hour_utc) ∧
      (∀ d ∈ build_noaa_daily rows,
        d.daily_max_temp_C = aggMax ((rows.filter fun r2 =>
          decide ((r2.station, dateTrunc r2.hour_utc) =
            (d.station, d.day_utc))).map (·.temp_C)) ∧
        d.avg_temp_C = aggAvg ((rows.filter fun r2 =>
          decide ((r2.station, dateTrunc r2.hour_utc) =
            (d.station, d.day_utc))).map (·.temp_C)) ∧
        ((∀ r2 ∈ rows.filter fun r2 =>
            decide ((r2.station, dateTrunc r2.hour_utc) =
              (d.station, d.day_utc)), r2.temp_C = none) →
          d.daily_max_temp_C = none ∧ d.avg_temp_C = none)) := by
  intro rows
  constructor
  · intro x hx
    have hk : (x.station, dateTrunc x.hour_utc) ∈
        (rows.map fun r => (r.station, dateTrunc r.hour_utc)).dedup :=
      List.mem_dedup.2 (List.mem_map_of_mem _ hx)
    simp only [build_noaa_daily]
    exact ⟨_, (List.mem_insertionSort _).2 (List.mem_map_of_mem _ hk), rfl, rfl⟩
  · intro d hd
    simp only [build_noaa_daily] at hd
    obtain ⟨k, hk, rfl⟩ := List.mem_map.1 ((List.mem_insertionSort _).1 hd)
    refine ⟨rfl, rfl, ?_⟩
    intro hall
    exact agg_of_all_none fun o ho => by
      obtain ⟨r2, hr2, rfl⟩ := List.mem_map.1 ho
      exact hall r2 hr2

/-- Witness for the amended C6: on the single all-null "BOS" reading, a
row is present for the day, and its aggregates are null. -/
theorem C6_witness :
    (∃ d ∈ build_noaa_daily [⟨"BOS", ⟨2023, 7, 4, 0⟩, none⟩],
      d.station = "BOS" ∧ d.day_utc = ⟨2023, 7, 4⟩) ∧
    ((⟨"BOS", ⟨2023, 7, 4⟩, none, none⟩ : DailyTemp).daily_max_temp_C = none ∧
      (⟨"BOS", ⟨2023, 7, 4⟩, none, none⟩ : DailyTemp).avg_temp_C = none) :=
  ⟨(C6_allnull_group_keeps_row [⟨"BOS", ⟨2023, 7, 4, 0⟩, none⟩]).1
      ⟨"BOS", ⟨2023, 7, 4, 0⟩, none⟩ (by decide),
   ((C6_allnull_group_keeps_row [⟨"BOS", ⟨2023, 7, 4, 0⟩, none⟩]).2
      ⟨"BOS", ⟨2023, 7, 4⟩, none, none⟩ (by decide)).2.2 (by decide)⟩

/-- C4: the unified table has exactly as many rows as the daily-temperature
table — the two left outer joins neither drop nor duplicate left rows —
and a row with no matching (region, day) load record carries null
`daily_total_mwh` and `daily_peak_mwh`. -/
theorem C4_join_completeness :
    ∀ db : DB,
      (runPipeline db).heat_load_daily_table.length =
        (runPipeline db).noaa_daily_temp.length ∧
      ∀ r ∈ (runPipeline db).heat_load_daily_table,
        (∀ e ∈ (runPipeline db).eia_daily_load,
          ¬(e.region = regionJoinKey r.station ∧ e.day_utc = r.day_utc)) →
        r.daily_total_mwh = none ∧ r.daily_peak_mwh = none := by
  intro db
  have hp1 : (runPipeline db).heat_load_daily_table =
      heat_load_daily (build_noaa_daily db.noaa_hourly_avg)
        (build_noaa_thresholds (build_noaa_daily db.noaa_hourly_avg))
        (build_eia_daily_load db.eia_load_hourly) := rfl
  have hp2 : (runPipeline db).noaa_daily_temp =
      build_noaa_daily db.noaa_hourly_avg := rfl
  have hp3 : (runPipeline db).eia_daily_load =
      build_eia_daily_load db.eia_load_hourly := rfl
  rw [hp1, hp2, hp3]
  constructor
  · exact heat_load_length _ _
  · intro r hr hno
    obtain ⟨n, hn, ob, hst, hday, hmax, havg, hreg, ht90, hhot, hob, hload⟩ :=
      heat_load_row_cases hr
    rcases hload with ⟨h1, h2, -⟩ | ⟨e, he, hereg, heday, -, -⟩
    · exact ⟨h1, h2⟩
    · exact absurd ⟨by rw [hst]; exact hereg, by rw [hday]; exact heday⟩ (hno e he)

/-- Witness for C4: with the "XYZ" reading and no load data, the unified
table matches the daily table's cardinality and the row's load fields are
null. -/
theorem C4_witness :
    (runPipeline exDBEmptyLoad).heat_load_daily_table.length =
      (runPipeline exDBEmptyLoad).noaa_daily_temp.length ∧
    ((⟨"XYZ", none, ⟨2023, 7, 4⟩, some 30, some 30, some 30, some true, none,
        none⟩ : HeatLoad).daily_total_mwh = none ∧
      (⟨"XYZ", none, ⟨2023, 7, 4⟩, some 30, some 30, some 30, some true, none,
        none⟩ : HeatLoad).daily_peak_mwh = none) :=
  ⟨(C4_join_completeness exDBEmptyLoad).1,
   (C4_join_completeness exDBEmptyLoad).2
      ⟨"XYZ", none, ⟨2023, 7, 4⟩, some 30, some 30, some 30, some true, none,
        none⟩ (by decide) (by decide)⟩

/-- C5: an exact duplicate hourly load row never changes the daily load
table — duplicates are removed with distinct-rows semantics before
aggregation — and on the spec's replay example the duplicated 500 MWh hour
is counted once. -/
theorem C5_dedup_counts_once :
    (∀ (r : HourlyLoad) (l : List HourlyLoad),
      build_eia_daily_load (r :: r :: l) = build_eia_daily_load (r :: l)) ∧
    build_eia_daily_load exLoadsDup =
      [⟨"RX", ⟨2023, 7, 4⟩, some 500, some 500⟩] := by
  refine ⟨?_, eia_dup_example_eval⟩
  intro r l
  simp only [build_eia_daily_load]
  rw [List.dedup_cons_of_mem (List.mem_cons_self r l)]

/-- C7: every threshold computed from a group with at least one non-null
sample lies within the closed interval [min, max] of the group's samples,
and a single-sample group's threshold is that sample. -/
theorem C7_threshold_within_sample_range :
    ∀ (daily : List DailyTemp) (t : Threshold), t ∈ build_noaa_thresholds daily →
      ((((daily.filter fun r =>
          decide ((r.station, mmddOf r.day_utc) = (t.station, t.mmdd))).map
            (·.daily_max_temp_C)).filterMap id) ≠ [] →
        ∃ v m M, t.t90_max = some v ∧
          listMin (((daily.filter fun r =>
            decide ((r.station, mmddOf r.day_utc) = (t.station, t.mmdd))).map
              (·.daily_max_temp_C)).filterMap id) = some m ∧
          listMax (((daily.filter fun r =>
            decide ((r.station, mmddOf r.day_utc) = (t.station, t.mmdd))).map
              (·.daily_max_temp_C)).filterMap id) = some M ∧
          m ≤ v ∧ v ≤ M) ∧
      (∀ x : ℚ, (((daily.filter fun r =>
          decide ((r.station, mmddOf r.day_utc) = (t.station, t.mmdd))).map
            (·.daily_max_temp_C)).filterMap id) = [x] → t.t90_max = some x) := by
  intro daily t ht
  have ht90 := thresholds_t90_eq ht
  constructor
  · intro hne
    obtain ⟨v, hv, ⟨a, ha, hav⟩, ⟨b, hb, hvb⟩⟩ :=
      quantileCont_between (9 / 10) (by norm_num) (by norm_num) _ hne
    obtain ⟨m, hm, hma⟩ := listMin_spec ha
    obtain ⟨M, hM, hbM⟩ := listMax_spec hb
    exact ⟨v, m, M, by rw [ht90]; exact hv, hm, hM,
      le_trans hma hav, le_trans hvb hbM⟩
  · intro x hx
    rw [ht90]
    exact quantileCont_of_single_value _ _ _ hx

/-- Witness for C7 at the spec's ten-sample example group. -/
theorem C7_witness :
    ((((exDailyS1.filter fun r =>
      decide ((r.station, mmddOf r.day_utc) =
        ((⟨"S1", (7, 4), some (341 / 10)⟩ : Threshold).station,
         (⟨"S1", (7, 4), some (341 / 10)⟩ : Threshold).mmdd))).map
        (·.daily_max_temp_C)).filterMap id) ≠ []) ∧
    ∃ v m M, (⟨"S1", (7, 4), some (341 / 10)⟩ : Threshold).t90_max = some v ∧
      listMin ((((exDailyS1.filter fun r =>
        decide ((r.station, mmddOf r.day_utc) =
          ((⟨"S1", (7, 4), some (341 / 10)⟩ : Threshold).station,
           (⟨"S1", (7, 4), some (341 / 10)⟩ : Threshold).mmdd))).map
          (·.daily_max_temp_C)).filterMap id)) = some m ∧
      listMax ((((exDailyS1.filter fun r =>
        decide ((r.station, mmddOf r.day_utc) =
          ((⟨"S1", (7, 4), some (341 / 10)⟩ : Threshold).station,
           (⟨"S1", (7, 4), some (341 / 10)⟩ : Threshold).mmdd))).map
          (·.daily_max_temp_C)).filterMap id)) = some M ∧
      m ≤ v ∧ v ≤ M :=
  ⟨by decide,
   (C7_threshold_within_sample_range exDailyS1
      ⟨"S1", (7, 4), some (341 / 10)⟩ (by decide)).1 (by decide)⟩

/-- C8: the pipeline is idempotent — rerunning the five drop-and-recreate
stages on an unchanged database reproduces exactly the same derived
tables, because every stage is a deterministic function of its input
tables alone. -/
theorem C8_pipeline_idempotent :
    ∀ db : DB, runPipeline (runPipeline db) = runPipeline db := by
  intro db
  rfl

/-- C9: a daily row whose station is neither 'IAD' nor 'BOS' is emitted
with a null region, yet its load columns are joined from region 'ISNE'
(the ELSE branch of the join's CASE): whenever an ISNE daily-load row for
the same day exists, the unmapped row carries that row's totals. -/
theorem C9_unmapped_station_joins_isne_load :
    ∀ (daily : List DailyTemp) (th : List Threshold) (loads : List HourlyLoad)
      (r : HeatLoad), r ∈ heat_load_daily daily th (build_eia_daily_load loads) →
      r.station ≠ "IAD" → r.station ≠ "BOS" →
      r.region = none ∧
      (∀ e ∈ build_eia_daily_load loads, e.region = "ISNE" →
        e.day_utc = r.day_utc →
        r.daily_total_mwh = e.daily_total_mwh ∧
        r.daily_peak_mwh = e.daily_peak_mwh) := by
  intro daily th loads r hr h1 h2
  obtain ⟨n, hn, ob, hst, hday, hmax, havg, hreg, ht90, hhot, hob, hload⟩ :=
    heat_load_row_cases hr
  rw [hst] at h1 h2
  have hrjk : regionJoinKey n.station = "ISNE" := by
    rw [regionJoinKey, if_neg h1]
  constructor
  · rw [hreg, regionCase, if_neg h1, if_neg h2]
  · intro e he hereg heday
    rw [hday] at heday
    rcases hload with ⟨-, -, hnomatch⟩ | ⟨e2, he2, hereg2, heday2, htot, hpeak⟩
    · exact absurd ⟨by rw [hrjk]; exact hereg, heday⟩ (hnomatch e he)
    · have hkey : (e.region, e.day_utc) = (e2.region, e2.day_utc) := by
        rw [hereg, hereg2, hrjk, heday, heday2]
      have hee2 : e = e2 :=
        List.inj_on_of_nodup_map (eia_nodup_key loads) he he2 hkey
      exact ⟨by rw [htot, ← hee2], by rw [hpeak, ← hee2]⟩

/-- Witness for C9: the "XYZ" row of the example run has a null region and
carries ISNE's 500 MWh day. -/
theorem C9_witness :
    (⟨"XYZ", none, ⟨2023, 7, 4⟩, some 30, some 30, some 30, some true,
        some 500, some 500⟩ : HeatLoad).region = none ∧
    (∀ e ∈ build_eia_daily_load exLoadsIsne, e.region = "ISNE" →
      e.day_utc = (⟨"XYZ", none, ⟨2023, 7, 4⟩, some 30, some 30, some 30,
        some true, some 500, some 500⟩ : HeatLoad).day_utc →
      (⟨"XYZ", none, ⟨2023, 7, 4⟩, some 30, some 30, some 30, some true,
        some 500, some 500⟩ : HeatLoad).daily_total_mwh = e.daily_total_mwh ∧
      (⟨"XYZ", none, ⟨2023, 7, 4⟩, some 30, some 30, some 30, some true,
        some 500, some 500⟩ : HeatLoad).daily_peak_mwh = e.daily_peak_mwh) :=
  C9_unmapped_station_joins_isne_load (build_noaa_daily exHourlyXyz)
    (build_noaa_thresholds (build_noaa_daily exHourlyXyz)) exLoadsIsne
    ⟨"XYZ", none, ⟨2023, 7, 4⟩, some 30, some 30, some 30, some true,
      some 500, some 500⟩ (by decide) (by decide) (by decide)

/-- C10: every (station, calendar-day) pair of the daily table has a
matching threshold row (the threshold table is grouped from that very
table), so the standalone flag builder's inner join drops nothing and the
flag table's row count equals the daily table's. -/
theorem C10_flag_join_complete :
    ∀ db : DB,
      (∀ d ∈ (runPipeline db).noaa_daily_temp,
        ∃ t ∈ (runPipeline db).noaa_temp_thresholds,
          t.station = d.station ∧ t.mmdd = mmddOf d.day_utc) ∧
      (runPipeline db).noaa_heatwave_flags.length =
        (runPipeline db).noaa_daily_temp.length := by
  intro db
  have hp1 : (runPipeline db).noaa_daily_temp =
      build_noaa_daily db.noaa_hourly_avg := rfl
  have hp2 : (runPipeline db).noaa_temp_thresholds =
      build_noaa_thresholds (build_noaa_daily db.noaa_hourly_avg) := rfl
  have hp3 : (runPipeline db).noaa_heatwave_flags =
      build_noaa_heatwave_flags (build_noaa_daily db.noaa_hourly_avg)
        (build_noaa_thresholds (build_noaa_daily db.noaa_hourly_avg)) := rfl
  rw [hp1, hp2, hp3]
  exact ⟨fun d hd => thresholds_key_present hd, flags_length _⟩

/-- Witness for C10 on the example database. -/
theorem C10_witness :
    (∃ t ∈ (runPipeline exDB).noaa_temp_thresholds,
      t.station = "XYZ" ∧ t.mmdd = (7, 4)) ∧
    (runPipeline exDB).noaa_heatwave_flags.length =
      (runPipeline exDB).noaa_daily_temp.length :=
  ⟨(C10_flag_join_complete exDB).1
      ⟨"XYZ", ⟨2023, 7, 4⟩, some 30, some 30⟩ (by decide),
   (C10_flag_join_complete exDB).2⟩

end Claims
